import Mathlib

/-!
Shallow embedding of the fraud-detection-logger engine.

Sources embedded here:
- `src/models/transaction.js` (`Transaction.validate`, `Transaction.checkFraudRules`)
- `src/services/fraudDetectionService.js` (`FraudDetectionService`: `processTransaction`,
  `checkRapidTransactions`, query methods, `getStats`, `clearCache`; the `node-cache`
  instance with `stdTTL: 10`)
- `src/kafka/consumer.js` (`KafkaConsumer.processMessage`, the `eachMessage` handler,
  `addToRetryQueue` with `maxRetries = 3`)

Modelling conventions:
- JavaScript values appearing in payload fields are modelled by `JSValue`
  (undefined, null, number, string, boolean).  JS `NaN` is not representable in `ℚ`;
  no claim involves it.
- Wall-clock instants (`Date.now()`) are integers, in milliseconds.
- `new Date(x)` parsing success is environment behaviour; it is passed in as a
  parameter `dateOk : JSValue → Bool` ("`new Date(x).getTime()` is not NaN").
- `JSON.parse` on a raw Kafka message either throws (modelled `none`) or yields a
  parsed payload object (`some p`); string-level JSON parsing is out of scope.
- Thrown JS errors become `Except`-style error values.  Error identity follows the
  code's throw sites, not the message text.
-/

namespace FraudLogger

/-- A JavaScript value, restricted to the shapes that can occur in a parsed
JSON transaction payload field.  (`NaN` is not representable; no claim uses it.) -/
inductive JSValue where
  | undefined
  | null
  | num (q : ℚ)
  | str (s : String)
  | bool (b : Bool)
deriving DecidableEq, Repr

/-- JavaScript truthiness of a `JSValue`: `undefined`, `null`, `0`, `""` and
`false` are falsy. -/
def JSValue.truthy : JSValue → Bool
  | .undefined => false
  | .null => false
  | .num q => decide (q ≠ 0)
  | .str s => decide (s ≠ "")
  | .bool b => b

/-- JS string interpolation of a value (used for the cache key
`user_${transaction.userId}`).  Number formatting is exact for integers, which is
the only numeric case the development evaluates. -/
def JSValue.display : JSValue → String
  | .undefined => "undefined"
  | .null => "null"
  | .num q => if q.den = 1 then toString q.num else toString q.num ++ "/" ++ toString q.den
  | .str s => s
  | .bool b => cond b "true" "false"

/-- A parsed transaction payload: the JSON object handed to
`Transaction.validate` / `new Transaction(data)`.  A field absent from the JSON
object reads as `undefined`. -/
structure Payload where
  transactionId : JSValue
  userId : JSValue
  amount : JSValue
  location : JSValue
  timestamp : JSValue
deriving DecidableEq, Repr

/-- Dynamic field access `data[field]` for the five required field names;
any other name reads as `undefined`. -/
def Payload.get (data : Payload) : String → JSValue
  | "transactionId" => data.transactionId
  | "userId" => data.userId
  | "amount" => data.amount
  | "location" => data.location
  | "timestamp" => data.timestamp
  | _ => .undefined

/-- Embeds `const required = ['transactionId', 'userId', 'amount', 'location', 'timestamp']`. -/
def requiredFields : List String :=
  ["transactionId", "userId", "amount", "location", "timestamp"]

/-- Characters removed by JS `String.prototype.trim` (the ASCII white-space and
line-terminator characters; the further Unicode space characters JS also trims
never occur in this development). -/
def jsWhitespace (c : Char) : Bool :=
  c = ' ' ∨ c = '\t' ∨ c = '\n' ∨ c = '\r' ∨ c = '\x0b' ∨ c = '\x0c'

/-- JS `s.trim()`: strip leading and trailing white-space. -/
def jsTrim (s : String) : String :=
  ⟨((s.data.dropWhile jsWhitespace).reverse.dropWhile jsWhitespace).reverse⟩

/-- The distinct throw sites of `Transaction.validate`, identified by kind
(the JS code throws `Error` with a message string; callers of this model match
on the kind, mirroring the messages recorded in the constructor comments). -/
inductive ValidationError where
  /-- Error `Missing required fields: <list>` — carries the filtered field-name list. -/
  | missingFields (fields : List String)
  /-- Error `Amount must be a positive number`. -/
  | amountNotPositive
  /-- Error `Location must be a non-empty string`. -/
  | locationNotNonEmpty
  /-- Error `Invalid timestamp format`. -/
  | invalidTimestamp
deriving DecidableEq, Repr

/-- Embeds `Transaction.validate(data)` from `src/models/transaction.js`.
`dateOk v` models `!isNaN(new Date(v).getTime())`. -/
def validate (dateOk : JSValue → Bool) (data : Payload) : Except ValidationError Unit :=
  let missing := requiredFields.filter (fun f => !(data.get f).truthy)
  if missing ≠ [] then
    .error (.missingFields missing)
  else if (match data.amount with | .num q => decide (q ≤ 0) | _ => true) then
    .error .amountNotPositive
  else if (match data.location with | .str s => decide (jsTrim s = "") | _ => true) then
    .error .locationNotNonEmpty
  else if !(dateOk data.timestamp) then
    .error .invalidTimestamp
  else
    .ok ()

/-- The constructed `Transaction` object (the fields the fraud rules read;
`timestamp` is the raw event-time value, which the rules never consult). -/
structure Transaction where
  transactionId : JSValue
  userId : JSValue
  amount : ℚ
  location : String
  timestamp : JSValue
deriving DecidableEq, Repr

/-- Numeric content of a `JSValue` (only consulted after `validate` has
established the value is a number; the default is a modelling artifact). -/
def JSValue.numVal : JSValue → ℚ
  | .num q => q
  | _ => 0

/-- String content of a `JSValue` (only consulted after `validate` has
established the value is a string). -/
def JSValue.strVal : JSValue → String
  | .str s => s
  | _ => ""

/-- Embeds `new Transaction(data)`. -/
def Transaction.ofPayload (data : Payload) : Transaction :=
  { transactionId := data.transactionId
    userId := data.userId
    amount := data.amount.numVal
    location := data.location.strVal
    timestamp := data.timestamp }

/-- Truncation toward zero of a rational, matching how JS `%` divides. -/
def jsTrunc (q : ℚ) : ℤ := q.num.tdiv (q.den : ℤ)

/-- JS remainder `a % b` for finite numbers and `b ≠ 0`: the remainder of
truncated division, carrying the sign of the dividend.  (The engine only uses
`b = 1000`.) -/
def jsMod (a b : ℚ) : ℚ := a - b * (jsTrunc (a / b) : ℚ)

/-- A rule violation record as pushed by the JS code.  `transactionCount` is the
optional extra field only the rapid-transactions rule sets. -/
structure Violation where
  rule : String
  description : String
  severity : String
  transactionCount : Option ℕ := none
deriving DecidableEq, Repr

/-- The violation object pushed by rule 1 of `checkFraudRules`. -/
def highAmountViolation : Violation :=
  { rule := "HIGH_AMOUNT_NON_USA"
    description := "Amount > $5000 and location is not USA"
    severity := "HIGH" }

/-- The violation object pushed by rule 2 of `checkFraudRules`. -/
def roundAmountViolation : Violation :=
  { rule := "ROUND_AMOUNT"
    description := "Amount is a round number divisible by 1000"
    severity := "MEDIUM" }

/-- Embeds `Transaction.checkFraudRules()`: rule 1 (`amount > 5000 && location !== 'USA'`)
then rule 2 (`amount % 1000 === 0`), each appending its violation. -/
def checkFraudRules (t : Transaction) : List Violation :=
  (if 5000 < t.amount ∧ t.location ≠ "USA" then [highAmountViolation] else []) ++
  (if jsMod t.amount 1000 = 0 then [roundAmountViolation] else [])

/-- One element of a per-user recent-transaction list:
`{ transactionId, timestamp: Date.now() }`. -/
structure CacheEntry where
  transactionId : JSValue
  timestamp : ℤ
deriving DecidableEq, Repr

/-- One stored key of the `node-cache` instance: the value list plus its expiry
instant `t = storedAt + stdTTL * 1000` (here `stdTTL = 10`). -/
structure CacheLine where
  expireAt : ℤ
  val : List CacheEntry
deriving DecidableEq, Repr

/-- The `node-cache` instance `userTransactionCache` with its hit/miss counters. -/
structure Cache where
  entries : List (String × CacheLine)
  hits : ℕ
  misses : ℕ
deriving DecidableEq, Repr

def emptyCache : Cache := ⟨[], 0, 0⟩

/-- Embeds `cache.get(key)` at instant `now`: a present, unexpired key is a hit; a
missing or expired key is a miss (an expired key is also deleted). -/
def Cache.get (c : Cache) (key : String) (now : ℤ) : Option (List CacheEntry) × Cache :=
  match c.entries.find? (fun p => decide (p.1 = key)) with
  | some (_, line) =>
      if line.expireAt < now then
        (none, { entries := c.entries.filter (fun p => !decide (p.1 = key))
                 hits := c.hits
                 misses := c.misses + 1 })
      else
        (some line.val, { c with hits := c.hits + 1 })
  | none => (none, { c with misses := c.misses + 1 })

/-- Embeds `cache.set(key, value)` at instant `now`, with the instance default TTL of
10 seconds: stores the value with expiry `now + 10000` ms, replacing any
previous entry for the key.  Stats counters are untouched. -/
def Cache.set (c : Cache) (key : String) (v : List CacheEntry) (now : ℤ) : Cache :=
  { c with entries := (key, ⟨now + 10000, v⟩) :: c.entries.filter (fun p => !decide (p.1 = key)) }

/-- Embeds `cache.flushAll()`: drops all data and resets the stats counters. -/
def Cache.flushAll (_c : Cache) : Cache := emptyCache

/-- The cache key `` `user_${transaction.userId}` ``. -/
def userKey (u : JSValue) : String := "user_" ++ u.display

/-- Embeds `userTransactions.filter(t => (now - t.timestamp) < 10000)`. -/
def windowFilter (now : ℤ) (l : List CacheEntry) : List CacheEntry :=
  l.filter (fun e => decide (now - e.timestamp < 10000))

/-- The per-user window after the read–filter–append step of
`checkRapidTransactions` (before it is stored back). -/
def updatedWindow (t : Transaction) (now : ℤ) (c : Cache) : List CacheEntry :=
  windowFilter now ((c.get (userKey t.userId) now).1.getD []) ++
    [⟨t.transactionId, now⟩]

/-- The violation object returned by `checkRapidTransactions` for a window of
size `n`. -/
def rapidViolation (n : ℕ) : Violation :=
  { rule := "RAPID_TRANSACTIONS"
    description := "Multiple transactions from same user in < 10 seconds (" ++
      toString n ++ " transactions)"
    severity := "HIGH"
    transactionCount := some n }

/-- Embeds `FraudDetectionService.checkRapidTransactions(transaction)` at wall-clock
instant `now` (`Date.now()`), acting on the cache: get, filter to the trailing
10-second window, append the current transaction, store back, and flag iff the
resulting window has more than one element. -/
def checkRapidTransactions (t : Transaction) (now : ℤ) (c : Cache) :
    Option Violation × Cache :=
  let got := c.get (userKey t.userId) now
  let w := updatedWindow t now c
  let c2 := got.2.set (userKey t.userId) w now
  if 1 < w.length then (some (rapidViolation w.length), c2) else (none, c2)

/-- A record pushed onto `this.fraudulentTransactions` (the spread of
`transaction.toJSON()` plus the violation list; `isSuspicious` is always
`true` on pushed records). -/
structure FraudRecord where
  transaction : Transaction
  violations : List Violation
deriving DecidableEq, Repr

/-- The mutable state of a `FraudDetectionService` instance. -/
structure ServiceState where
  cache : Cache
  fraudulentTransactions : List FraudRecord
deriving DecidableEq, Repr

def emptyService : ServiceState := ⟨emptyCache, []⟩

/-- The value returned by a successful `processTransaction` call (the parts of
the JS result object the engine computes). -/
structure ProcessOutput where
  isSuspicious : Bool
  violations : List Violation
deriving DecidableEq, Repr

/-- Embeds `FraudDetectionService.processTransaction(transactionData)` at wall-clock
instant `now`: validate (a validation failure is rethrown with the state
untouched), build the transaction, run the stateless rules, run the stateful
rapid-transactions rule, and append a fraud record when there is at least one
violation. -/
def processTransaction (dateOk : JSValue → Bool) (data : Payload) (now : ℤ)
    (st : ServiceState) : Except ValidationError ProcessOutput × ServiceState :=
  match validate dateOk data with
  | .error e => (.error e, st)
  | .ok _ =>
    let t := Transaction.ofPayload data
    let individualViolations := checkFraudRules t
    let rapid := checkRapidTransactions t now st.cache
    let fraudViolations := individualViolations ++
      (match rapid.1 with | some v => [v] | none => [])
    if 0 < fraudViolations.length then
      (.ok ⟨true, fraudViolations⟩,
       { cache := rapid.2
         fraudulentTransactions := st.fraudulentTransactions ++ [⟨t, fraudViolations⟩] })
    else
      (.ok ⟨false, []⟩, { cache := rapid.2
                          fraudulentTransactions := st.fraudulentTransactions })

/-- Embeds `getAllFraudulentTransactions()`. -/
def getAllFraudulentTransactions (st : ServiceState) : List FraudRecord :=
  st.fraudulentTransactions

/-- Embeds `getFraudulentTransactionsByUserId(userId)`. -/
def getFraudulentTransactionsByUserId (st : ServiceState) (u : JSValue) :
    List FraudRecord :=
  st.fraudulentTransactions.filter (fun r => decide (r.transaction.userId = u))

/-- Embeds `getFraudulentTransactionsByRule(rule)`. -/
def getFraudulentTransactionsByRule (st : ServiceState) (rule : String) :
    List FraudRecord :=
  st.fraudulentTransactions.filter
    (fun r => r.violations.any (fun v => decide (v.rule = rule)))

/-- The statistics object assembled by `getStats()`. -/
structure Stats where
  totalFraudulentTransactions : ℕ
  ruleBreakdown : String → ℕ
  cacheHitRatio : ℚ

/-- Embeds `FraudDetectionService.getStats()`.  The JS hit-ratio expression is
`hits / (hits + misses) || 0`: with both counters zero the quotient is `NaN`
(falsy), so `|| 0` yields `0`; otherwise the quotient is a plain non-negative
number (a quotient of `0` is unchanged by `|| 0`). -/
def getStats (st : ServiceState) : Stats :=
  { totalFraudulentTransactions := st.fraudulentTransactions.length
    ruleBreakdown := fun r =>
      (st.fraudulentTransactions.map
        (fun rec => rec.violations.countP (fun v => decide (v.rule = r)))).sum
    cacheHitRatio :=
      if st.cache.hits + st.cache.misses = 0 then 0
      else (st.cache.hits : ℚ) / ((st.cache.hits : ℚ) + (st.cache.misses : ℚ)) }

/-- Embeds `FraudDetectionService.clearCache()`: flushes the activity-window cache
only. -/
def clearCache (st : ServiceState) : ServiceState :=
  { st with cache := st.cache.flushAll }

/-- The operations a client can invoke on a service instance. -/
inductive Op where
  | process (data : Payload) (now : ℤ)
  | clearCacheOp
  | getStatsOp
  | getAllOp
  | getByUserOp (u : JSValue)
  | getByRuleOp (r : String)

/-- One client operation acting on the service state (query operations and
`getStats` read but never mutate the engine state). -/
def step (dateOk : JSValue → Bool) (st : ServiceState) : Op → ServiceState
  | .process data now => (processTransaction dateOk data now st).2
  | .clearCacheOp => clearCache st
  | .getStatsOp => st
  | .getAllOp => st
  | .getByUserOp _ => st
  | .getByRuleOp _ => st

/-- A sequence of client operations run left to right. -/
def run (dateOk : JSValue → Bool) (st : ServiceState) (ops : List Op) : ServiceState :=
  ops.foldl (step dateOk) st

/-- The two kinds of in-engine throw that `KafkaConsumer.processMessage` can
propagate: `JSON.parse` throwing on an undecodable payload, or
`processTransaction` rethrowing a validation error. -/
inductive ProcessError where
  | malformed
  | validation (e : ValidationError)
deriving DecidableEq, Repr

/-- Embeds `KafkaConsumer.processMessage(message)`: decode the payload (a raw message
is modelled by its decode result, `none` when `JSON.parse` throws) and run
`processTransaction`; any error is logged and rethrown, leaving the service
state untouched. -/
def processMessage (dateOk : JSValue → Bool) (msg : Option Payload) (now : ℤ)
    (st : ServiceState) : Except ProcessError ServiceState :=
  match msg with
  | none => .error .malformed
  | some data =>
    match processTransaction dateOk data now st with
    | (.error e, _) => .error (.validation e)
    | (.ok _, st2) => .ok st2

/-- What the `eachMessage` handler does with a delivery. -/
inductive HandlerAction where
  | acked
  | sentToRetry (retryCount : ℕ)
deriving DecidableEq, Repr

/-- The `eachMessage` handler body of `KafkaConsumer.start`: try
`processMessage` (then heartbeat); on any error, log and call
`addToRetryQueue(message, 0)`. -/
def eachMessageHandler (dateOk : JSValue → Bool) (msg : Option Payload) (now : ℤ)
    (st : ServiceState) : ServiceState × HandlerAction :=
  match processMessage dateOk msg now st with
  | .ok st2 => (st2, .acked)
  | .error _ => (st, .sentToRetry 0)

/-- Embeds `this.maxRetries = 3`. -/
def maxRetries : ℕ := 3

/-- The observable outcome of a chain of `addToRetryQueue` attempts for one
message: the backoff delays scheduled (ms, in order), whether some attempt
succeeded, whether the terminal `failed after max retries` log fired, and the
final service state. -/
structure RetryOutcome where
  delays : List ℤ
  succeeded : Bool
  terminalLogged : Bool
  finalState : ServiceState
deriving DecidableEq, Repr

/-- Embeds `KafkaConsumer.addToRetryQueue(message, retryCount)`: if the attempt count
has reached `maxRetries`, log the terminal failure and drop the message;
otherwise schedule `processMessage` after `2^retryCount * 1000` ms, and on
failure re-enqueue with `retryCount + 1`.  A failed in-engine attempt leaves
the service state unchanged (the only in-engine throws precede any state
update), so the retry runs against the same state. -/
def addToRetryQueue (dateOk : JSValue → Bool) (msg : Option Payload)
    (retryCount : ℕ) (now : ℤ) (st : ServiceState) : RetryOutcome :=
  if maxRetries ≤ retryCount then
    { delays := [], succeeded := false, terminalLogged := true, finalState := st }
  else
    let retryDelay : ℤ := 2 ^ retryCount * 1000
    match processMessage dateOk msg (now + retryDelay) st with
    | .ok st2 =>
        { delays := [retryDelay], succeeded := true, terminalLogged := false
          finalState := st2 }
    | .error _ =>
        let r := addToRetryQueue dateOk msg (retryCount + 1) (now + retryDelay) st
        { delays := retryDelay :: r.delays, succeeded := r.succeeded
          terminalLogged := r.terminalLogged, finalState := r.finalState }
termination_by maxRetries - retryCount
decreasing_by simp [maxRetries] at *; omega

/-! ### Shared fixtures and helper lemmas -/

/-- A payload that passes every check (the repository's unit-test fixture). -/
def samplePayload : Payload :=
  { transactionId := .str "txn_123"
    userId := .str "user_456"
    amount := .num 1000
    location := .str "USA"
    timestamp := .str "2025-01-15T10:30:00Z" }

/-- A date-parse oracle accepting every value; concrete scenarios in this file
only involve parseable timestamps. -/
def alwaysParses : JSValue → Bool := fun _ => true

/-- A non-trivial service state used to witness state-preservation claims. -/
def sampleState : ServiceState :=
  { cache := { entries := [("user_user_456", ⟨10000, [⟨.str "txn_0", 400⟩]⟩)]
               hits := 2, misses := 3 }
    fraudulentTransactions :=
      [⟨⟨.str "txn_0", .str "user_456", 5000, "USA", .str "2025-01-15T10:00:00Z"⟩,
        [roundAmountViolation]⟩] }

/-- First transaction of the repository's rapid-transaction test scenario. -/
def rapidPayload1 : Payload :=
  { samplePayload with transactionId := .str "txn_1", userId := .str "user_123"
                       amount := .num 100 }

/-- Second transaction of the repository's rapid-transaction test scenario. -/
def rapidPayload2 : Payload :=
  { samplePayload with transactionId := .str "txn_2", userId := .str "user_123"
                       amount := .num 200 }

theorem highAmount_ne_roundAmount : highAmountViolation ≠ roundAmountViolation := by
  decide

theorem jsMod_6000 : jsMod 6000 1000 = 0 := by norm_num [jsMod, jsTrunc]

theorem jsMod_5000 : jsMod 5000 1000 = 0 := by norm_num [jsMod, jsTrunc]

theorem jsMod_10000 : jsMod 10000 1000 = 0 := by norm_num [jsMod, jsTrunc]

theorem jsMod_100 : jsMod 100 1000 ≠ 0 := by
  norm_num [jsMod, jsTrunc]
  rw [show Int.tdiv 1 10 = 0 from rfl]
  norm_num

theorem jsMod_200 : jsMod 200 1000 ≠ 0 := by
  norm_num [jsMod, jsTrunc]
  rw [show Int.tdiv 1 5 = 0 from rfl]
  norm_num

/-! ### Claim theorems -/

/-- C3 counterexample: with `amount = 6000` the round-amount rule necessarily
fires (`6000 % 1000 === 0`), so `{amount:6000, location:"USA"}` yields
`[ROUND_AMOUNT]` (not `[]`) and `{amount:6000, location:"Nigeria"}` yields both
violations (not `[HIGH_AMOUNT_NON_USA]` alone). -/
theorem checkFraudRules_6000_counterexample :
    checkFraudRules
        ⟨.str "txn_123", .str "user_456", 6000, "USA", .str "2025-01-15T10:30:00Z"⟩ =
      [roundAmountViolation] ∧
    checkFraudRules
        ⟨.str "txn_123", .str "user_456", 6000, "Nigeria", .str "2025-01-15T10:30:00Z"⟩ =
      [highAmountViolation, roundAmountViolation] := by
  constructor
  · simp [checkFraudRules, jsMod_6000]
  · simp [checkFraudRules, jsMod_6000]
    norm_num

/-- C3 (amended): rule evaluation emits `HIGH_AMOUNT_NON_USA` (severity HIGH)
iff `amount > 5000` and `location ≠ "USA"` (case-sensitive), emits
`ROUND_AMOUNT` (severity MEDIUM) iff `amount % 1000 == 0`, checks both rules
with no short-circuiting, and never deduplicates or reorders: the result is
always a sublist of the fixed order `[HIGH_AMOUNT_NON_USA, ROUND_AMOUNT]`.
Concretely, 6000/"Nigeria" yields both violations, 6000/"USA" yields
`[ROUND_AMOUNT]`, 5000/"USA" yields `[ROUND_AMOUNT]`, and 10000/"Nigeria"
yields both. -/
theorem checkFraudRules_characterization :
    (highAmountViolation.severity = "HIGH" ∧ roundAmountViolation.severity = "MEDIUM") ∧
    (∀ t : Transaction,
      List.Sublist (checkFraudRules t) [highAmountViolation, roundAmountViolation] ∧
      (highAmountViolation ∈ checkFraudRules t ↔ 5000 < t.amount ∧ t.location ≠ "USA") ∧
      (roundAmountViolation ∈ checkFraudRules t ↔ jsMod t.amount 1000 = 0)) ∧
    (∀ tid uid ts,
      checkFraudRules ⟨tid, uid, 6000, "Nigeria", ts⟩ =
        [highAmountViolation, roundAmountViolation] ∧
      checkFraudRules ⟨tid, uid, 6000, "USA", ts⟩ = [roundAmountViolation] ∧
      checkFraudRules ⟨tid, uid, 5000, "USA", ts⟩ = [roundAmountViolation] ∧
      checkFraudRules ⟨tid, uid, 10000, "Nigeria", ts⟩ =
        [highAmountViolation, roundAmountViolation]) := by
  refine ⟨⟨rfl, rfl⟩, ?_, ?_⟩
  · intro t
    by_cases h1 : 5000 < t.amount ∧ t.location ≠ "USA" <;>
      by_cases h2 : jsMod t.amount 1000 = 0 <;>
        simp [checkFraudRules, h1, h2, highAmount_ne_roundAmount,
          highAmount_ne_roundAmount.symm]
  · intro tid uid ts
    refine ⟨?_, ?_, ?_, ?_⟩ <;> simp [checkFraudRules, jsMod_6000, jsMod_5000, jsMod_10000]
    all_goals norm_num

theorem truthy_undefined : JSValue.truthy .undefined = false := rfl

/-- C4: when at least one required field is absent from the payload, validation
fails with the single missing-fields error, and the carried field list names
every absent required field (all of them, not only the first), each named field
having genuinely failed the presence check. -/
theorem validate_names_all_missing_fields
    (dateOk : JSValue → Bool) (data : Payload)
    (h : requiredFields.filter (fun f => decide (data.get f = JSValue.undefined)) ≠ []) :
    ∃ m, validate dateOk data = .error (.missingFields m) ∧
      (∀ f ∈ requiredFields, data.get f = .undefined → f ∈ m) ∧
      (∀ f ∈ m, f ∈ requiredFields ∧ (data.get f).truthy = false) := by
  have habs : ∃ f ∈ requiredFields, data.get f = JSValue.undefined := by
    rcases List.exists_mem_of_ne_nil _ h with ⟨f, hf⟩
    rcases List.mem_filter.mp hf with ⟨hf1, hf2⟩
    exact ⟨f, hf1, of_decide_eq_true hf2⟩
  have hmem : ∀ f ∈ requiredFields, data.get f = JSValue.undefined →
      f ∈ requiredFields.filter (fun f => !(data.get f).truthy) := by
    intro f hf hu
    exact List.mem_filter.mpr ⟨hf, by simp [hu, JSValue.truthy]⟩
  have hne : requiredFields.filter (fun f => !(data.get f).truthy) ≠ [] := by
    rcases habs with ⟨f, hf, hu⟩
    exact List.ne_nil_of_mem (hmem f hf hu)
  refine ⟨requiredFields.filter (fun f => !(data.get f).truthy), ?_, hmem, ?_⟩
  · simp only [validate]
    rw [if_pos hne]
  · intro f hf
    rcases List.mem_filter.mp hf with ⟨hf1, hf2⟩
    exact ⟨hf1, by simpa using hf2⟩

/-- C10: an `amount` of `0` or a `location` of `""` is falsy in JS, so the
required-field presence check classifies the field as missing and the
`Missing required fields` error names it; the input never reaches the
positive-amount / non-empty-location checks. -/
theorem validate_falsy_zero_and_empty_string :
    (∀ (dateOk : JSValue → Bool) (data : Payload), data.amount = .num 0 →
       ∃ m, validate dateOk data = .error (.missingFields m) ∧ "amount" ∈ m) ∧
    (∀ (dateOk : JSValue → Bool) (data : Payload), data.location = .str "" →
       ∃ m, validate dateOk data = .error (.missingFields m) ∧ "location" ∈ m) := by
  constructor
  · intro dateOk data h
    have hmem : "amount" ∈ requiredFields.filter (fun f => !(data.get f).truthy) := by
      refine List.mem_filter.mpr ⟨by decide, ?_⟩
      simp [Payload.get, h, JSValue.truthy]
    refine ⟨_, ?_, hmem⟩
    simp only [validate]
    rw [if_pos (List.ne_nil_of_mem hmem)]
  · intro dateOk data h
    have hmem : "location" ∈ requiredFields.filter (fun f => !(data.get f).truthy) := by
      refine List.mem_filter.mpr ⟨by decide, ?_⟩
      simp [Payload.get, h, JSValue.truthy]
    refine ⟨_, ?_, hmem⟩
    simp only [validate]
    rw [if_pos (List.ne_nil_of_mem hmem)]

/-- C5: with every required field present (truthy), validation rejects an
amount that is not a number or not strictly positive with the positive-amount
error; then a location that is not a string or trims to empty with the
non-empty-location error; then an unparseable timestamp with the
invalid-timestamp error.  Concretely, `amount = -100` fails with the
positive-amount error and `amount = 0` is rejected (via the missing-fields
path, `0` being falsy). -/
theorem validate_value_checks :
    (∀ (dateOk : JSValue → Bool) (data : Payload),
      (∀ f ∈ requiredFields, (data.get f).truthy = true) →
      ((¬ ∃ q, data.amount = .num q ∧ 0 < q) →
         validate dateOk data = .error .amountNotPositive) ∧
      ((∃ q, data.amount = .num q ∧ 0 < q) →
       (¬ ∃ s, data.location = .str s ∧ jsTrim s ≠ "") →
         validate dateOk data = .error .locationNotNonEmpty) ∧
      ((∃ q, data.amount = .num q ∧ 0 < q) →
       (∃ s, data.location = .str s ∧ jsTrim s ≠ "") →
       dateOk data.timestamp = false →
         validate dateOk data = .error .invalidTimestamp)) ∧
    (∀ dateOk : JSValue → Bool,
       validate dateOk { samplePayload with amount := .num (-100) } =
         .error .amountNotPositive) ∧
    (∀ dateOk : JSValue → Bool,
       ∃ e, validate dateOk { samplePayload with amount := .num 0 } = .error e) := by
  refine ⟨?_, ?_, ?_⟩
  · intro dateOk data hall
    have hmiss : requiredFields.filter (fun f => !(data.get f).truthy) = [] := by
      rw [List.filter_eq_nil_iff]
      intro f hf
      simp [hall f hf]
    refine ⟨?_, ?_, ?_⟩
    · intro hamt
      simp only [validate, hmiss]
      rw [if_neg (by simp), if_pos]
      match hv : data.amount with
      | .num q =>
          simp only []
          have : ¬ 0 < q := fun hq => hamt ⟨q, hv, hq⟩
          simpa using le_of_not_lt this
      | .undefined => rfl
      | .null => rfl
      | .str s => rfl
      | .bool b => rfl
    · intro hamt hloc
      obtain ⟨q, hq, hqpos⟩ := hamt
      simp only [validate, hmiss]
      rw [if_neg (by simp), if_neg (by simp [hq, not_le, hqpos]), if_pos]
      match hv : data.location with
      | .str s =>
          have : jsTrim s = "" := by
            by_contra hne
            exact hloc ⟨s, hv, hne⟩
          simpa using this
      | .undefined => rfl
      | .null => rfl
      | .num q2 => rfl
      | .bool b => rfl
    · intro hamt hloc hts
      obtain ⟨q, hq, hqpos⟩ := hamt
      obtain ⟨s, hs, hstrim⟩ := hloc
      simp only [validate, hmiss]
      rw [if_neg (by simp), if_neg (by simp [hq, not_le, hqpos]),
        if_neg (by simp [hs, hstrim]), if_pos (by simp [hts])]
  · intro dateOk
    simp only [validate]
    rw [if_neg (by decide), if_pos (by norm_num)]
  · intro dateOk
    exact ⟨.missingFields ["amount"], by simp only [validate]; rw [if_pos (by decide)]; rfl⟩

/-- C9: a validation failure is rethrown before any state is touched:
`processTransaction` returns the validation error and the exact pre-call
state (store and activity window, counters included). -/
theorem processTransaction_validation_failure_pure :
    ∀ (dateOk : JSValue → Bool) (data : Payload) (now : ℤ) (st : ServiceState)
      (e : ValidationError),
      validate dateOk data = .error e →
      processTransaction dateOk data now st = (.error e, st) := by
  intro dateOk data now st e h
  simp [processTransaction, h]

theorem validate_names_all_missing_fields_witness :
    ∃ m, validate alwaysParses { samplePayload with location := .undefined, timestamp := .undefined } =
        .error (.missingFields m) ∧ "location" ∈ m ∧ "timestamp" ∈ m := by
  obtain ⟨m, hm, hall, _⟩ :=
    validate_names_all_missing_fields alwaysParses
      { samplePayload with location := .undefined, timestamp := .undefined } (by decide)
  exact ⟨m, hm, hall _ (by decide) rfl, hall _ (by decide) rfl⟩

theorem validate_value_checks_witness :
    validate alwaysParses { samplePayload with location := .str " " } =
        .error .locationNotNonEmpty ∧
    validate alwaysParses { samplePayload with amount := .num (-100) } =
        .error .amountNotPositive ∧
    (∃ e, validate alwaysParses { samplePayload with amount := .num 0 } = .error e) ∧
    validate (fun _ => false) samplePayload = .error .invalidTimestamp := by
  refine ⟨?_, validate_value_checks.2.1 alwaysParses, validate_value_checks.2.2 alwaysParses, ?_⟩
  · refine (validate_value_checks.1 alwaysParses _ (by decide)).2.1 ⟨1000, rfl, by norm_num⟩ ?_
    rintro ⟨s, hs, hne⟩
    cases hs
    exact hne (by decide)
  · exact (validate_value_checks.1 (fun _ => false) samplePayload (by decide)).2.2
      ⟨1000, rfl, by norm_num⟩ ⟨"USA", rfl, by decide⟩ rfl

theorem validate_falsy_zero_and_empty_string_witness :
    (∃ m, validate alwaysParses { samplePayload with amount := .num 0 } =
        .error (.missingFields m) ∧ "amount" ∈ m) ∧
    (∃ m, validate alwaysParses { samplePayload with location := .str "" } =
        .error (.missingFields m) ∧ "location" ∈ m) :=
  ⟨validate_falsy_zero_and_empty_string.1 alwaysParses _ rfl,
   validate_falsy_zero_and_empty_string.2 alwaysParses _ rfl⟩

theorem processTransaction_validation_failure_pure_witness :
    processTransaction alwaysParses { samplePayload with amount := .num (-100) } 0 sampleState =
      (.error .amountNotPositive, sampleState) :=
  processTransaction_validation_failure_pure alwaysParses _ 0 sampleState .amountNotPositive rfl

/-- C7: `getStats` computes `cacheHitRatio` as `hits / (hits + misses)` over
the activity-window counters, and yields exactly `0` when no lookup has
happened yet (`hits + misses = 0`), with no division-by-zero failure (the JS
`NaN` from `0/0` is squashed to `0` by `|| 0`). -/
theorem getStats_cacheHitRatio :
    ∀ st : ServiceState,
      (st.cache.hits + st.cache.misses = 0 → (getStats st).cacheHitRatio = 0) ∧
      (st.cache.hits + st.cache.misses ≠ 0 →
        (getStats st).cacheHitRatio =
          (st.cache.hits : ℚ) / ((st.cache.hits : ℚ) + (st.cache.misses : ℚ))) := by
  intro st
  constructor <;> intro h <;> simp [getStats, h]

theorem getStats_cacheHitRatio_witness :
    (getStats emptyService).cacheHitRatio = 0 ∧
    (getStats sampleState).cacheHitRatio = 2 / 5 := by
  constructor
  · exact (getStats_cacheHitRatio emptyService).1 rfl
  · rw [(getStats_cacheHitRatio sampleState).2 (by decide)]
    norm_num [sampleState]

/-- Every single operation extends the fraud store by at most one appended
record and never rewrites existing entries. -/
theorem step_store_extends (dateOk : JSValue → Bool) (st : ServiceState) (op : Op) :
    ∃ tail, (step dateOk st op).fraudulentTransactions =
      st.fraudulentTransactions ++ tail ∧ tail.length ≤ 1 := by
  cases op with
  | process data now =>
      simp only [step, processTransaction]
      cases h : validate dateOk data with
      | error e => exact ⟨[], by simp⟩
      | ok u =>
          simp only []
          split
          · exact ⟨[_], rfl, by simp⟩
          · exact ⟨[], by simp⟩
  | clearCacheOp => exact ⟨[], by simp [step, clearCache]⟩
  | getStatsOp => exact ⟨[], by simp [step]⟩
  | getAllOp => exact ⟨[], by simp [step]⟩
  | getByUserOp u => exact ⟨[], by simp [step]⟩
  | getByRuleOp r => exact ⟨[], by simp [step]⟩

theorem run_store_extends (dateOk : JSValue → Bool) (ops : List Op) :
    ∀ st : ServiceState, ∃ tail,
      (run dateOk st ops).fraudulentTransactions = st.fraudulentTransactions ++ tail := by
  induction ops with
  | nil => exact fun st => ⟨[], by simp [run]⟩
  | cons op ops ih =>
      intro st
      obtain ⟨t1, h1, _⟩ := step_store_extends dateOk st op
      obtain ⟨t2, h2⟩ := ih (step dateOk st op)
      exact ⟨t1 ++ t2, by simp [run] at h2 ⊢; rw [h2, h1, List.append_assoc]⟩

/-- C6: over every sequence of client operations the fraud store only grows:
the store before any run is a prefix of the store after it (so its size is
monotonically non-decreasing and records are never removed or mutated);
`clearCache` empties exactly the activity-window cache and zeroes its counters
while leaving the store untouched; and a single `processTransaction` appends at
most one record. -/
theorem fraudStore_append_only :
    ∀ (dateOk : JSValue → Bool) (st : ServiceState) (ops : List Op),
      (∃ tail, (run dateOk st ops).fraudulentTransactions =
         st.fraudulentTransactions ++ tail) ∧
      st.fraudulentTransactions.length ≤
        (run dateOk st ops).fraudulentTransactions.length ∧
      clearCache st =
        { cache := emptyCache, fraudulentTransactions := st.fraudulentTransactions } ∧
      (∀ data now, ∃ tail,
        (step dateOk st (.process data now)).fraudulentTransactions =
          st.fraudulentTransactions ++ tail ∧ tail.length ≤ 1) := by
  intro dateOk st ops
  obtain ⟨tail, htail⟩ := run_store_extends dateOk ops st
  refine ⟨⟨tail, htail⟩, by simp [htail], rfl, fun data now => step_store_extends dateOk st _⟩

theorem userKey_str_inj {u1 u2 : String} (h : userKey (.str u1) = userKey (.str u2)) :
    u1 = u2 := by
  simp only [userKey, JSValue.display] at h
  have hd := congrArg String.data h
  simp only [String.data_append] at hd
  exact String.ext (List.append_cancel_left hd)

theorem find?_none_of_filter {l : List (String × CacheLine)}
    {p q : String × CacheLine → Bool} (h : l.find? p = none) :
    (l.filter q).find? p = none := by
  rw [List.find?_eq_none] at h ⊢
  intro x hx
  exact h x (List.mem_of_mem_filter hx)

/-- Behaviour of `checkRapidTransactions` on a cache holding no entry for the transaction's
user: counts a miss, stores a one-element window, flags nothing. -/
theorem checkRapid_fresh (t : Transaction) (n : ℤ) (c : Cache)
    (h : c.entries.find? (fun p => decide (p.1 = userKey t.userId)) = none) :
    checkRapidTransactions t n c =
      (none,
       { entries := (userKey t.userId, ⟨n + 10000, [⟨t.transactionId, n⟩]⟩) ::
           c.entries.filter (fun p => !decide (p.1 = userKey t.userId))
         hits := c.hits
         misses := c.misses + 1 }) := by
  have hget : c.get (userKey t.userId) n = (none, { c with misses := c.misses + 1 }) := by
    simp [Cache.get, h]
  simp [checkRapidTransactions, updatedWindow, hget, Cache.set, windowFilter]

/-- Behaviour of `checkRapidTransactions` on a cache whose entry for the transaction's user
is present and unexpired: counts a hit, filters the stored window to the
trailing 10 seconds, appends, stores back, and flags iff the result has more
than one element. -/
theorem checkRapid_hit (t : Transaction) (n : ℤ) (c : Cache) (line : CacheLine)
    (h : c.entries.find? (fun p => decide (p.1 = userKey t.userId)) =
      some (userKey t.userId, line))
    (hexp : ¬ line.expireAt < n) :
    checkRapidTransactions t n c =
      ((if 1 < (windowFilter n line.val ++ [(⟨t.transactionId, n⟩ : CacheEntry)]).length
        then some
          (rapidViolation (windowFilter n line.val ++ [(⟨t.transactionId, n⟩ : CacheEntry)]).length)
        else none),
       ({ c with hits := c.hits + 1 } : Cache).set (userKey t.userId)
         (windowFilter n line.val ++ [(⟨t.transactionId, n⟩ : CacheEntry)]) n) := by
  have hget : c.get (userKey t.userId) n = (some line.val, { c with hits := c.hits + 1 }) := by
    simp [Cache.get, h, hexp]
  simp [checkRapidTransactions, updatedWindow, hget]
  split <;> rfl

/-- C2: two transactions of one user processed 5 seconds apart on a cache with
no prior activity for that user leave the first unflagged and flag the second
with `RAPID_TRANSACTIONS` (severity HIGH, `transactionCount = 2`); with two
distinct userIds neither is flagged; in general the window is measured against
the current processing wall-clock instant (the transaction's own event
timestamp is never consulted), the current transaction is appended
unconditionally, and a violation is emitted exactly when the resulting window
size exceeds 1. -/
theorem checkRapidTransactions_spec :
    (∀ (u : String) (t1 t2 : Transaction) (n : ℤ) (c : Cache),
       t1.userId = .str u → t2.userId = .str u →
       c.entries.find? (fun p => decide (p.1 = userKey (.str u))) = none →
       (checkRapidTransactions t1 n c).1 = none ∧
       (checkRapidTransactions t2 (n + 5000) (checkRapidTransactions t1 n c).2).1 =
         some (rapidViolation 2) ∧
       (rapidViolation 2).severity = "HIGH" ∧
       (rapidViolation 2).transactionCount = some 2) ∧
    (∀ (u1 u2 : String) (t1 t2 : Transaction) (n : ℤ) (c : Cache),
       u1 ≠ u2 → t1.userId = .str u1 → t2.userId = .str u2 →
       c.entries.find? (fun p => decide (p.1 = userKey (.str u1))) = none →
       c.entries.find? (fun p => decide (p.1 = userKey (.str u2))) = none →
       (checkRapidTransactions t1 n c).1 = none ∧
       (checkRapidTransactions t2 (n + 5000) (checkRapidTransactions t1 n c).2).1 =
         none) ∧
    (∀ (t : Transaction) (now : ℤ) (c : Cache),
       ((checkRapidTransactions t now c).2).entries.find?
           (fun p => decide (p.1 = userKey t.userId)) =
         some (userKey t.userId, ⟨now + 10000, updatedWindow t now c⟩) ∧
       (updatedWindow t now c).getLast? = some ⟨t.transactionId, now⟩ ∧
       (checkRapidTransactions t now c).1 =
         (if 1 < (updatedWindow t now c).length
          then some (rapidViolation (updatedWindow t now c).length) else none)) ∧
    (∀ (t : Transaction) (now : ℤ) (c : Cache) (ts : JSValue),
       checkRapidTransactions { t with timestamp := ts } now c =
         checkRapidTransactions t now c) ∧
    ((processTransaction alwaysParses rapidPayload1 0 emptyService).1 = .ok ⟨false, []⟩ ∧
     (processTransaction alwaysParses rapidPayload2 5000
        (processTransaction alwaysParses rapidPayload1 0 emptyService).2).1 =
       .ok ⟨true, [rapidViolation 2]⟩) := by
  have hcf1 : checkFraudRules (Transaction.ofPayload rapidPayload1) = [] := by
    simp [checkFraudRules, show (Transaction.ofPayload rapidPayload1).amount = 100 from rfl,
      show (Transaction.ofPayload rapidPayload1).location = "USA" from rfl, jsMod_100]
  have hcf2 : checkFraudRules (Transaction.ofPayload rapidPayload2) = [] := by
    simp [checkFraudRules, show (Transaction.ofPayload rapidPayload2).amount = 200 from rfl,
      show (Transaction.ofPayload rapidPayload2).location = "USA" from rfl, jsMod_200]
  refine ⟨?_, ?_, ?_, ?_, ?_⟩
  · intro u t1 t2 n c h1 h2 hc
    have hf := checkRapid_fresh t1 n c (by rw [h1]; exact hc)
    refine ⟨by rw [hf], ?_, rfl, rfl⟩
    rw [hf]
    have hfind : ((userKey t1.userId, (⟨n + 10000, [⟨t1.transactionId, n⟩]⟩ : CacheLine)) ::
          c.entries.filter (fun p => !decide (p.1 = userKey t1.userId))).find?
            (fun p => decide (p.1 = userKey t2.userId)) =
        some (userKey t2.userId, (⟨n + 10000, [⟨t1.transactionId, n⟩]⟩ : CacheLine)) := by
      rw [h1, h2]
      exact List.find?_cons_of_pos _ (by simp)
    have hh := checkRapid_hit t2 (n + 5000)
      (⟨(userKey t1.userId, ⟨n + 10000, [⟨t1.transactionId, n⟩]⟩) ::
          c.entries.filter (fun p => !decide (p.1 = userKey t1.userId)),
        c.hits, c.misses + 1⟩ : Cache)
      ⟨n + 10000, [⟨t1.transactionId, n⟩]⟩ hfind
      (by show ¬ (n + 10000 < n + 5000); omega)
    rw [hh]
    have hwf : windowFilter (n + 5000) [⟨t1.transactionId, n⟩] = [⟨t1.transactionId, n⟩] := by
      simp [windowFilter]
    rw [hwf]
    rfl
  · intro u1 u2 t1 t2 n c hne h1 h2 hc1 hc2
    have hf := checkRapid_fresh t1 n c (by rw [h1]; exact hc1)
    refine ⟨by rw [hf], ?_⟩
    rw [hf]
    have hfind : ((userKey t1.userId, (⟨n + 10000, [⟨t1.transactionId, n⟩]⟩ : CacheLine)) ::
          c.entries.filter (fun p => !decide (p.1 = userKey t1.userId))).find?
            (fun p => decide (p.1 = userKey t2.userId)) = none := by
      rw [h1, h2]
      rw [List.find?_cons_of_neg _ (by simp; exact fun hk => hne (userKey_str_inj hk))]
      exact find?_none_of_filter hc2
    have hf2 := checkRapid_fresh t2 (n + 5000)
      (⟨(userKey t1.userId, ⟨n + 10000, [⟨t1.transactionId, n⟩]⟩) ::
          c.entries.filter (fun p => !decide (p.1 = userKey t1.userId)),
        c.hits, c.misses + 1⟩ : Cache) hfind
    rw [hf2]
  · intro t now c
    have h2 : (checkRapidTransactions t now c).2 =
        ((c.get (userKey t.userId) now).2).set (userKey t.userId)
          (updatedWindow t now c) now := by
      simp only [checkRapidTransactions]
      split <;> rfl
    refine ⟨?_, ?_, ?_⟩
    · rw [h2]
      simp only [Cache.set]
      exact List.find?_cons_of_pos _ (by simp)
    · simp [updatedWindow]
    · simp only [checkRapidTransactions]
      split <;> simp_all
  · intro t now c ts
    rfl
  · have hr1 := checkRapid_fresh (Transaction.ofPayload rapidPayload1) 0 emptyCache rfl
    have hst1 : (processTransaction alwaysParses rapidPayload1 0 emptyService).1 =
        .ok ⟨false, []⟩ ∧ (processTransaction alwaysParses rapidPayload1 0 emptyService).2 =
        { cache := (checkRapidTransactions (Transaction.ofPayload rapidPayload1) 0
            emptyCache).2
          fraudulentTransactions := [] } := by
      constructor <;> simp [processTransaction, show validate alwaysParses rapidPayload1 =
        .ok () from rfl, hcf1, hr1, emptyService]
    refine ⟨hst1.1, ?_⟩
    rw [hst1.2, hr1]
    show (processTransaction alwaysParses rapidPayload2 5000
        { cache := ⟨[("user_user_123", ⟨10000, [⟨.str "txn_1", 0⟩]⟩)], 0, 1⟩
          fraudulentTransactions := [] }).1 = .ok ⟨true, [rapidViolation 2]⟩
    have hh := checkRapid_hit (Transaction.ofPayload rapidPayload2) 5000
      (⟨[("user_user_123", ⟨10000, [⟨.str "txn_1", 0⟩]⟩)], 0, 1⟩ : Cache)
      ⟨10000, [⟨.str "txn_1", 0⟩]⟩ rfl (by norm_num)
    simp only [processTransaction, show validate alwaysParses rapidPayload2 = .ok () from rfl,
      hcf2, hh]
    norm_num [windowFilter]

theorem checkRapidTransactions_spec_witness :
    (checkRapidTransactions (Transaction.ofPayload rapidPayload1) 0 emptyCache).1 = none ∧
    (checkRapidTransactions (Transaction.ofPayload rapidPayload2) (0 + 5000)
        (checkRapidTransactions (Transaction.ofPayload rapidPayload1) 0 emptyCache).2).1 =
      some (rapidViolation 2) ∧
    (checkRapidTransactions
        (Transaction.ofPayload { rapidPayload2 with userId := .str "user_456" }) (0 + 5000)
        (checkRapidTransactions (Transaction.ofPayload rapidPayload1) 0 emptyCache).2).1 =
      none := by
  have h := checkRapidTransactions_spec.1 "user_123" (Transaction.ofPayload rapidPayload1)
    (Transaction.ofPayload rapidPayload2) 0 emptyCache rfl rfl rfl
  have h2 := (checkRapidTransactions_spec.2.1 "user_123" "user_456"
    (Transaction.ofPayload rapidPayload1)
    (Transaction.ofPayload { rapidPayload2 with userId := .str "user_456" })
    0 emptyCache (by decide) rfl rfl rfl rfl).2
  exact ⟨h.1, h.2.1, h2⟩

/-- C1 counterexample: a message with a permanent failure IS handed to the
retry coordinator.  An undecodable payload (`MalformedMessage`) and a
deterministically invalid payload (`ValidationError`) both make the
`eachMessage` handler call `addToRetryQueue(message, 0)` instead of dropping
the message, because the handler catches every error uniformly. -/
theorem permanent_error_retried_counterexample :
    processMessage alwaysParses none 0 emptyService = .error .malformed ∧
    eachMessageHandler alwaysParses none 0 emptyService =
      (emptyService, .sentToRetry 0) ∧
    processMessage alwaysParses (some { samplePayload with amount := .num (-100) }) 0
        emptyService = .error (.validation .amountNotPositive) ∧
    eachMessageHandler alwaysParses (some { samplePayload with amount := .num (-100) }) 0
        emptyService = (emptyService, .sentToRetry 0) :=
  ⟨rfl, rfl, rfl, rfl⟩

/-- C1 (amended): the ingestion loop never classifies failures.  Every message
whose processing throws — permanently (malformed payload, validation error)
just like transiently — is handed to the Retry Coordinator via
`addToRetryQueue(message, 0)`, with the engine state untouched by the failed
attempt; every successful message is acknowledged with the updated state. -/
theorem eachMessage_failure_always_retried :
    ∀ (dateOk : JSValue → Bool) (msg : Option Payload) (now : ℤ) (st : ServiceState),
      ((∃ e, processMessage dateOk msg now st = .error e) →
        eachMessageHandler dateOk msg now st = (st, .sentToRetry 0)) ∧
      (∀ st2, processMessage dateOk msg now st = .ok st2 →
        eachMessageHandler dateOk msg now st = (st2, .acked)) := by
  intro dateOk msg now st
  constructor
  · rintro ⟨e, he⟩
    simp [eachMessageHandler, he]
  · intro st2 h
    simp [eachMessageHandler, h]

theorem eachMessage_failure_always_retried_witness :
    eachMessageHandler alwaysParses none 0 sampleState = (sampleState, .sentToRetry 0) :=
  (eachMessage_failure_always_retried alwaysParses none 0 sampleState).1 ⟨.malformed, rfl⟩

/-- Backoff-delay shape of `addToRetryQueue`: starting from `retryCount = rc`,
the scheduled delays are `2^(rc+i) * 1000` for `i = 0, 1, …` and at most
`maxRetries - rc` attempts are scheduled. -/
theorem addToRetryQueue_delays (dateOk : JSValue → Bool) (msg : Option Payload) :
    ∀ (fuel rc : ℕ), maxRetries - rc = fuel → ∀ (now : ℤ) (st : ServiceState),
      ∃ k, k ≤ fuel ∧ (addToRetryQueue dateOk msg rc now st).delays =
        (List.range k).map (fun i => (2 : ℤ) ^ (rc + i) * 1000) := by
  intro fuel
  induction fuel with
  | zero =>
      intro rc h now st
      rw [addToRetryQueue, if_pos (by omega)]
      exact ⟨0, le_refl 0, rfl⟩
  | succ m ih =>
      intro rc h now st
      rw [addToRetryQueue, if_neg (by omega)]
      cases hp : processMessage dateOk msg (now + 2 ^ rc * 1000) st with
      | ok st2 =>
          refine ⟨1, by omega, ?_⟩
          rw [show List.range 1 = [0] from rfl]
          simp [hp]
      | error e =>
          obtain ⟨k, hk, hd⟩ := ih (rc + 1) (by omega) (now + 2 ^ rc * 1000) st
          refine ⟨k + 1, by omega, ?_⟩
          simp only [hp, hd, List.range_succ_eq_map, List.map_cons, List.map_map]
          refine congrArg₂ List.cons (by simp) ?_
          refine List.map_congr_left fun i _ => ?_
          simp only [Function.comp]
          rw [show rc + (i + 1) = rc + 1 + i from by omega]

/-- When every attempt fails, `addToRetryQueue` runs the full backoff ladder
from its current attempt count, never succeeds, fires the terminal log, and
returns the state unchanged. -/
theorem addToRetryQueue_all_fail (dateOk : JSValue → Bool) (msg : Option Payload)
    (hfail : ∀ (n : ℤ) (s : ServiceState), ∃ e, processMessage dateOk msg n s = .error e) :
    ∀ (fuel rc : ℕ), maxRetries - rc = fuel → ∀ (now : ℤ) (st : ServiceState),
      addToRetryQueue dateOk msg rc now st =
        { delays := (List.range fuel).map (fun i => (2 : ℤ) ^ (rc + i) * 1000)
          succeeded := false, terminalLogged := true, finalState := st } := by
  intro fuel
  induction fuel with
  | zero =>
      intro rc h now st
      rw [addToRetryQueue, if_pos (by omega)]
      simp
  | succ m ih =>
      intro rc h now st
      rw [addToRetryQueue, if_neg (by omega)]
      cases hp : processMessage dateOk msg (now + 2 ^ rc * 1000) st with
      | ok st2 =>
          obtain ⟨e, he⟩ := hfail (now + 2 ^ rc * 1000) st
          rw [hp] at he
          exact Except.noConfusion he
      | error e =>
          dsimp only
          rw [hp]
          dsimp only
          rw [ih (rc + 1) (by omega) (now + 2 ^ rc * 1000) st]
          simp only [RetryOutcome.mk.injEq, and_true, List.range_succ_eq_map,
            List.map_cons, List.map_map]
          refine congrArg₂ List.cons ?_ ?_
          · simp
          · refine List.map_congr_left fun i _ => ?_
            simp only [Function.comp]
            rw [show rc + (i + 1) = rc + 1 + i from by omega]

/-- C8: the retry coordinator schedules attempt `i` (starting at 0) after a
backoff delay of `2^i * 1000` ms, performs at most `maxRetries = 3` attempts,
and always terminates; when every attempt fails it fires the terminal
`failed after max retries` log, drops the message, and leaves the service
state — in particular the fraud store — exactly as it was, with no crash of
the ingestion loop (the retry chain is a total function returning an outcome). -/
theorem addToRetryQueue_spec :
    ∀ (dateOk : JSValue → Bool) (msg : Option Payload) (now : ℤ) (st : ServiceState),
      (∃ k, k ≤ maxRetries ∧ (addToRetryQueue dateOk msg 0 now st).delays =
        (List.range k).map (fun i => (2 : ℤ) ^ i * 1000)) ∧
      ((∀ (n : ℤ) (s : ServiceState), ∃ e, processMessage dateOk msg n s = .error e) →
        addToRetryQueue dateOk msg 0 now st =
          { delays := [1000, 2000, 4000], succeeded := false
            terminalLogged := true, finalState := st }) := by
  intro dateOk msg now st
  constructor
  · obtain ⟨k, hk, hd⟩ := addToRetryQueue_delays dateOk msg maxRetries 0 rfl now st
    exact ⟨k, hk, by simpa using hd⟩
  · intro hfail
    rw [addToRetryQueue_all_fail dateOk msg hfail maxRetries 0 rfl now st]
    have hlist : (List.range maxRetries).map (fun i => (2 : ℤ) ^ (0 + i) * 1000) =
        [1000, 2000, 4000] := by
      rw [show List.range maxRetries = [0, 1, 2] from rfl]
      norm_num
    rw [hlist]

theorem addToRetryQueue_spec_witness :
    addToRetryQueue alwaysParses none 0 0 emptyService =
      { delays := [1000, 2000, 4000], succeeded := false
        terminalLogged := true, finalState := emptyService } :=
  (addToRetryQueue_spec alwaysParses none 0 emptyService).2
    (fun _ _ => ⟨.malformed, rfl⟩)

end FraudLogger